import Mathlib

/-!
# Verification of the DFW Openings venue-resolution core

A shallow embedding, in Lean 4, of the venue identity-resolution and
scoring engine of the `dfw_openings` repository:

* `src/utils/normalize.py` — `normalize_name`, `normalize_address`;
* `src/db.py` — `upsert_venue` (match/insert branches, status priority,
  enrichment-field merging, last-seen maximum) over an explicit venue table;
* `src/etl/merge.py` — `infer_venue_type_from_event`,
  `infer_status_from_event`, `calculate_priority_score`,
  `update_venues_from_unmatched_events`.

Python-specific conventions used throughout the embedding:

* A nullable Python value of type `str` is `Option String` (`none` = `None`).
* A dict field that may be absent is `Option (Option String)`:
  `none` = key absent, `some none` = key present with value `None`.
* Python truthiness on strings: `None` and `""` are falsy.
* Python exceptions are modelled with `Except String`, the string naming
  the exception class.
* `str.lower` is modelled per-character on ASCII (`pyLower`); characters
  outside ASCII are irrelevant to every property proved here because
  `normalize_name` replaces everything outside `[a-z0-9\s]` by a space.
* Dates reaching `calculate_priority_score` are modelled by their parsed
  observable: the age in days relative to `date.today()`, `none` when the
  string is missing or unparsable (the `ValueError/TypeError` branch).
-/

/-! ## Normalizer (`src/utils/normalize.py`) -/

/-- The whitespace class of the regexes `[^a-z0-9\s]` and `\s+` and of
`str.split`/`str.strip`, restricted to its ASCII part (which is all that can
occur in the strings these properties are about). -/
def isPySpace (c : Char) : Bool :=
  c.toNat = 32 || c.toNat = 9 || c.toNat = 10 || c.toNat = 13 ||
    c.toNat = 11 || c.toNat = 12

/-- Per-character ASCII model of Python `str.lower`. -/
def pyLower (c : Char) : Char :=
  if 65 ≤ c.toNat ∧ c.toNat ≤ 90 then Char.ofNat (c.toNat + 32) else c

/-- The character class kept by `re.sub(r"[^a-z0-9\s]", " ", s)`. -/
def keepChar (c : Char) : Bool :=
  (97 ≤ c.toNat && c.toNat ≤ 122) || (48 ≤ c.toNat && c.toNat ≤ 57) ||
    isPySpace c

/-- One character of `re.sub(r"[^a-z0-9\s]", " ", s)`: characters outside
`[a-z0-9\s]` become a space. -/
def subChar (c : Char) : Char :=
  if keepChar c then c else ' '

/-- Python `s.split()`: split on whitespace runs, dropping empty pieces. -/
def pyWords (l : List Char) : List (List Char) :=
  (l.splitOnP isPySpace).filter (fun w => !w.isEmpty)

/-- Python `" ".join(tokens)`. -/
def joinSp : List (List Char) → List Char
  | [] => []
  | [t] => t
  | t :: ts => t ++ ' ' :: joinSp ts

/-- `STOP_WORDS` from `src/utils/normalize.py`. -/
def STOP_WORDS : List String :=
  ["llc", "inc", "inc.", "co", "company", "restaurant", "bar", "ltd",
   "corp", "corporation"]

/-- The token pipeline of `normalize_name`: lowercase, replace everything
outside `[a-z0-9\s]` by a space, split on whitespace, drop stop words. -/
def nameTokens (name : String) : List (List Char) :=
  (pyWords ((name.data.map pyLower).map subChar)).filter
    (fun t => !STOP_WORDS.contains (String.mk t))

/-- `normalize_name` from `src/utils/normalize.py`: falsy input gives `""`;
otherwise the (stop-word-filtered) tokens re-joined with single spaces. -/
def normalize_name (name : String) : String :=
  if name = "" then ""
  else String.mk (joinSp (nameTokens name))

/-- Fuel-indexed model of Python `str.replace(pat, rep)`: scan left to
right, replace each non-overlapping occurrence, resume after the replaced
occurrence.  Each step consumes at least one character of the source, so
`fuel = l.length` computes the whole replacement (`pyReplace`). -/
def pyReplaceAux (pat rep : List Char) : Nat → List Char → List Char
  | 0, l => l
  | _ + 1, [] => []
  | n + 1, c :: cs =>
    if pat.isPrefixOf (c :: cs) && !pat.isEmpty then
      rep ++ pyReplaceAux pat rep n ((c :: cs).drop pat.length)
    else
      c :: pyReplaceAux pat rep n cs

/-- Python `s.replace(pat, rep)` (for the nonempty patterns used here). -/
def pyReplace (pat rep l : List Char) : List Char :=
  pyReplaceAux pat rep l.length l

/-- `re.sub(r"\s+", " ", s)`: each maximal whitespace run becomes one
space. -/
def collapseWs : List Char → List Char
  | [] => []
  | [c] => if isPySpace c then [' '] else [c]
  | c :: d :: cs =>
    if isPySpace c && isPySpace d then collapseWs (d :: cs)
    else (if isPySpace c then ' ' else c) :: collapseWs (d :: cs)

/-- Python `s.strip()`. -/
def pyStrip (l : List Char) : List Char :=
  ((l.dropWhile isPySpace).reverse.dropWhile isPySpace).reverse

/-- The `replacements` table of `normalize_address`, in dict insertion
order (Python dicts iterate in insertion order). -/
def addressReplacements : List (String × String) :=
  [(" ste ", " suite "), (" st ", " street "), (" st.", " street"),
   (" rd ", " road "), (" rd.", " road"), (" ave ", " avenue "),
   (" ave.", " avenue"), (" blvd ", " boulevard "), (" blvd.", " boulevard"),
   (" dr ", " drive "), (" dr.", " drive"), (" ln ", " lane "),
   (" ln.", " lane"), (" ct ", " court "), (" ct.", " court"),
   (" pkwy ", " parkway "), (" pkwy.", " parkway")]

/-- `normalize_address` from `src/utils/normalize.py`: falsy input gives
`""`; otherwise lowercase, apply the replacement table in order, collapse
whitespace runs, and strip. -/
def normalize_address (addr : String) : String :=
  if addr = "" then ""
  else
    let s := addr.data.map pyLower
    let s := addressReplacements.foldl
      (fun acc pr => pyReplace pr.1.data pr.2.data acc) s
    String.mk (pyStrip (collapseWs s))

example : normalize_name "Joe's Bar & Grill LLC" = "joe s grill" := by decide
example : normalize_address "123 Main St Ste 4" = "123 main street suite 4" := by decide

/-! ## Venue store (`src/db.py`, `upsert_venue`)

A row of the `venues` table.  Nullable SQL columns are `Option`-valued.
`latitude`/`longitude` are `REAL` columns never computed on by the code
under verification; they are carried with an opaque `Int` payload. -/

structure Venue where
  id : Nat
  name : Option String
  normalized_name : Option String
  address : Option String
  normalized_address : Option String
  city : Option String
  state : Option String
  zip : Option String
  latitude : Option Int
  longitude : Option Int
  phone : Option String
  website : Option String
  google_place_id : Option String
  naics_code : Option String
  venue_type : Option String
  status : Option String
  first_seen_date : Option String
  last_seen_date : Option String
  priority_score : Option Int
  notes : Option String
  lead_status : Option String
  next_follow_up : Option String
  competitor : Option String
  lost_reason : Option String
  deriving Repr, DecidableEq

/-- The `venue_data` dict passed to `upsert_venue`.  Each field is
`none` when the key is absent, `some none` when present with value `None`,
`some (some s)` when present with a string. -/
structure Draft where
  name : Option (Option String) := none
  normalized_name : Option (Option String) := none
  address : Option (Option String) := none
  normalized_address : Option (Option String) := none
  city : Option (Option String) := none
  state : Option (Option String) := none
  zip : Option (Option String) := none
  venue_type : Option (Option String) := none
  status : Option (Option String) := none
  first_seen_date : Option (Option String) := none
  last_seen_date : Option (Option String) := none
  priority_score : Option (Option Int) := none
  phone : Option (Option String) := none
  website : Option (Option String) := none
  google_place_id : Option (Option String) := none
  naics_code : Option (Option String) := none
  deriving Repr, DecidableEq

/-- Python `dict.get(key, default)`: the stored value (possibly `None`)
when the key is present, otherwise the default. -/
def dget (v : Option (Option α)) (dflt : Option α) : Option α :=
  match v with
  | none => dflt
  | some x => x

/-- Python truthiness of a nullable string: `None` and `""` are falsy. -/
def truthyS : Option String → Bool
  | none => false
  | some s => !(s == "")

/-- Python `a or b` on nullable strings. -/
def pyOr (a b : Option String) : Option String :=
  if truthyS a then a else b

/-- Python truthiness of a nullable int: `None` and `0` are falsy. -/
def truthyI : Option Int → Bool
  | none => false
  | some n => !(n == 0)

/-- The `status_priority` dict of `upsert_venue`, with
`status_priority.get(s, 0)` lookup semantics. -/
def statusPriority (s : Option String) : Nat :=
  match s with
  | some "open" => 3
  | some "opening_soon" => 2
  | some "permitting" => 1
  | _ => 0

/-- CPython `max(a, b)` on two strings: the second argument replaces the
first exactly when it compares strictly greater, under code-point
lexicographic comparison (which is the `<` of `List Char`). -/
def pyStrMax (a b : String) : String :=
  if a.data < b.data then b else a

/-- `pyStrMax` agrees with the lexicographic `max` on `String`. -/
theorem pyStrMax_eq_max (a b : String) : pyStrMax a b = max a b := by
  unfold pyStrMax
  rw [max_def]
  have hd : a.data < b.data ↔ a < b := String.lt_iff_toList_lt.symm
  rcases lt_trichotomy a b with h | h | h
  · rw [if_pos (hd.mpr h), if_pos (le_of_lt h)]
  · subst h; simp
  · rw [if_neg (fun hc => absurd (hd.mp hc) (not_lt_of_gt h)),
      if_neg (not_le_of_gt h)]

/-- Python `max(a, b)` where `a` is nullable and `b` is a string:
`max(None, str)` raises `TypeError`; on two strings it is code-point
lexicographic maximum, matching CPython. -/
def pyMaxStr (a : Option String) (b : String) : Except String String :=
  match a with
  | none => .error "TypeError"
  | some s => .ok (pyStrMax s b)

/-- The column values computed by the match branch of `upsert_venue`
(`src/db.py` lines 283–307): the eight columns of its `UPDATE`. -/
structure UpdateVals where
  last_seen_date : String
  venue_type : Option String
  status : Option String
  priority_score : Option Int
  phone : Option String
  website : Option String
  google_place_id : Option String
  naics_code : Option String
  deriving Repr, DecidableEq

/-- Compute the `UPDATE` column values of the match branch of
`upsert_venue`, given the existing row and the incoming `venue_data`.
Fails (Python `TypeError`) exactly when `venue_data["last_seen_date"]`
is present with value `None`, since `max(None, current)` raises. -/
def computeUpdate (existing : Venue) (venue_data : Draft) :
    Except String UpdateVals :=
  let new_last_seen := dget venue_data.last_seen_date (some "")
  let current_last_seen := existing.last_seen_date.getD ""
  match pyMaxStr new_last_seen current_last_seen with
  | .error e => .error e
  | .ok updated_last_seen =>
    let new_status := dget venue_data.status (some "unknown")
    let current_status := pyOr existing.status (some "unknown")
    let updated_status :=
      if statusPriority new_status > statusPriority current_status then new_status
      else current_status
    let updated_venue_type := pyOr (dget venue_data.venue_type none) existing.venue_type
    let updated_phone := pyOr (dget venue_data.phone none) existing.phone
    let updated_website := pyOr (dget venue_data.website none) existing.website
    let updated_google_place_id :=
      pyOr (dget venue_data.google_place_id none) existing.google_place_id
    let updated_naics_code := pyOr (dget venue_data.naics_code none) existing.naics_code
    let updated_priority_score :=
      dget venue_data.priority_score
        (if truthyI existing.priority_score then existing.priority_score else some 50)
    .ok {
      last_seen_date := updated_last_seen
      venue_type := updated_venue_type
      status := updated_status
      priority_score := updated_priority_score
      phone := updated_phone
      website := updated_website
      google_place_id := updated_google_place_id
      naics_code := updated_naics_code }

/-- Apply the eight `SET` clauses of the match-branch `UPDATE` to one row;
every other column of the row is untouched. -/
def applyUpdate (v : Venue) (u : UpdateVals) : Venue :=
  { v with
    last_seen_date := some u.last_seen_date
    venue_type := u.venue_type
    status := u.status
    priority_score := u.priority_score
    phone := u.phone
    website := u.website
    google_place_id := u.google_place_id
    naics_code := u.naics_code }

/-- The effect of the match branch of `upsert_venue` on the matched row. -/
def mergeVenue (existing : Venue) (venue_data : Draft) : Except String Venue :=
  match computeUpdate existing venue_data with
  | .error e => .error e
  | .ok u => .ok (applyUpdate existing u)

/-- The insert branch of `upsert_venue` (`src/db.py` lines 336–359): a
fresh row, with the columns absent from its `INSERT` list left `NULL`. -/
def insertVenue (newId : Nat) (venue_data : Draft) : Venue :=
  { id := newId
    name := dget venue_data.name none
    normalized_name := dget venue_data.normalized_name none
    address := dget venue_data.address none
    normalized_address := dget venue_data.normalized_address none
    city := dget venue_data.city none
    state := dget venue_data.state (some "TX")
    zip := dget venue_data.zip none
    latitude := none
    longitude := none
    venue_type := dget venue_data.venue_type none
    status := dget venue_data.status (some "unknown")
    first_seen_date := dget venue_data.first_seen_date none
    last_seen_date := dget venue_data.last_seen_date none
    priority_score := dget venue_data.priority_score (some 50)
    phone := dget venue_data.phone none
    website := dget venue_data.website none
    google_place_id := dget venue_data.google_place_id none
    naics_code := dget venue_data.naics_code none
    notes := none
    lead_status := some "new"
    next_follow_up := none
    competitor := none
    lost_reason := none }

/-- SQL `=` in a `WHERE` clause: `NULL` compares equal to nothing. -/
def sqlEq (a b : Option String) : Bool :=
  match a, b with
  | some x, some y => x == y
  | _, _ => false

/-- The `SELECT ... WHERE normalized_name = ? AND normalized_address = ?
AND city = ?` lookup predicate of `upsert_venue`. -/
def keyMatch (v : Venue) (d : Draft) : Bool :=
  sqlEq v.normalized_name (dget d.normalized_name none) &&
    sqlEq v.normalized_address (dget d.normalized_address none) &&
    sqlEq v.city (dget d.city none)

/-- `upsert_venue` over the venue table (rows in insertion order, as
SQLite scans them; `fetchone` takes the first match).  Returns the new
table, the next autoincrement id, and the returned venue id. -/
def upsertVenue (venues : List Venue) (nextId : Nat) (venue_data : Draft) :
    Except String (List Venue × Nat × Nat) :=
  match venues.find? (fun v => keyMatch v venue_data) with
  | some v =>
    match computeUpdate v venue_data with
    | .error e => .error e
    | .ok u =>
      .ok (venues.map (fun w => if w.id = v.id then applyUpdate w u else w),
           nextId, v.id)
  | none =>
    .ok (venues ++ [insertVenue nextId venue_data], nextId + 1, nextId)

/-- Sequential merging of a list of drafts into one venue row (the match
branch applied repeatedly, as further matching upserts arrive). -/
def mergeSeq (v : Venue) : List Draft → Except String Venue
  | [] => .ok v
  | d :: ds =>
    match mergeVenue v d with
    | .error e => .error e
    | .ok v' => mergeSeq v' ds

/-! ## Classifier (`src/etl/merge.py`, `infer_venue_type_from_event` and
`infer_status_from_event`) -/

/-- A parsed JSON payload value (the result of `json.loads`). -/
inductive PyVal where
  | vnull
  | vstr (s : String)
  | vint (n : Int)
  | vlist (l : List PyVal)
  | vdict (entries : List (String × PyVal))

/-- `payload = json.loads(payload_json) if payload_json else {}` guarded by
`except json.JSONDecodeError: payload = {}`.  The `payload_json` TEXT
column is modelled by its parse outcome: `none` for a falsy column
(`NULL`/`""`), `some none` for text that fails to parse, `some (some v)`
for text parsing to `v`. -/
def parsePayload (pj : Option (Option PyVal)) : PyVal :=
  match pj with
  | none => .vdict []
  | some none => .vdict []
  | some (some v) => v

/-- Python truthiness of a payload value. -/
def pyTruthy : PyVal → Bool
  | .vnull => false
  | .vstr s => !(s == "")
  | .vint n => !(n == 0)
  | .vlist l => !l.isEmpty
  | .vdict l => !l.isEmpty

/-- `payload.get(key, dflt)`: raises `AttributeError` when the parsed
payload is not a dict (e.g. a JSON array), as Python would. -/
def pyGet (v : PyVal) (key : String) (dflt : PyVal) : Except String PyVal :=
  match v with
  | .vdict es => .ok (((es.find? (fun e => e.1 == key)).map (fun e => e.2)).getD dflt)
  | _ => .error "AttributeError"

/-- `(x or "").lower()` on a payload value: falsy values give `""`; a
truthy non-string raises `AttributeError` at `.lower()`. -/
def pyOrEmptyLower (v : PyVal) : Except String String :=
  if pyTruthy v then
    match v with
    | .vstr s => .ok (String.mk (s.data.map pyLower))
    | _ => .error "AttributeError"
  else .ok ""

/-- Python `==` between a payload value and a string literal: `False`
unless the value is that string (no exception). -/
def pyValEqStr : PyVal → String → Bool
  | .vstr s, t => s == t
  | _, _ => false

/-- `value.startswith(pre)`: raises `AttributeError` on a non-string
(such as the `None` stored for a JSON `null`). -/
def pyStartsWith : PyVal → String → Except String Bool
  | .vstr s, pre => .ok (pre.isPrefixOf s)
  | _, _ => .error "AttributeError"

/-- Python `pat in hay` on character lists (substring test). -/
def isSubChars (pat : List Char) : List Char → Bool
  | [] => pat.isEmpty
  | c :: cs => pat.isPrefixOf (c :: cs) || isSubChars pat cs

/-- Python `pat in hay` on strings. -/
def strIn (pat hay : String) : Bool :=
  isSubChars pat.data hay.data

/-- Python `s.lower()` (ASCII model, see `pyLower`). -/
def strLower (s : String) : String :=
  String.mk (s.data.map pyLower)

/-- `BAR_KEYWORDS` from `src/config.py`. -/
def BAR_KEYWORDS : List String :=
  ["bar", "pub", "taproom", "saloon", "tavern", "lounge", "brewery", "brewpub"]

/-- `RESTAURANT_KEYWORDS` from `src/config.py`. -/
def RESTAURANT_KEYWORDS : List String :=
  ["restaurant", "cafe", "bistro", "eatery", "grill", "diner"]

/-- A row of the `source_events` table. -/
structure SourceEvent where
  id : Nat
  venue_id : Option Nat := none
  source_system : Option String := none
  source_record_id : Option String := none
  event_type : Option String := none
  event_date : Option String := none
  raw_name : Option String := none
  raw_address : Option String := none
  city : Option String := none
  url : Option String := none
  payload_json : Option (Option PyVal) := none

/-- The building-permit source systems listed in
`infer_status_from_event`. -/
def PERMIT_SOURCES : List String :=
  ["LEWISVILLE_PERMIT", "MESQUITE_PERMIT", "CARROLLTON_PERMIT",
   "PLANO_PERMIT", "FRISCO_PERMIT", "DALLAS_PERMIT", "ARLINGTON_PERMIT",
   "DENTON_PERMIT", "MCKINNEY_PERMIT", "SOUTHLAKE_PERMIT",
   "FORTWORTH_PERMIT"]

/-- `infer_venue_type_from_event` from `src/etl/merge.py`.  Returns
`some "bar"`, `some "restaurant"` or `none` (Python `None`); an exception
escaping the function is an `.error`. -/
def infer_venue_type_from_event (ev : SourceEvent) : Except String (Option String) :=
  let source_system := ev.source_system
  let raw_name := strLower (ev.raw_name.getD "")
  let payload := parsePayload ev.payload_json
  let fallback : Except String (Option String) :=
    if RESTAURANT_KEYWORDS.any (fun k => strIn k raw_name) then .ok (some "restaurant")
    else .ok none
  if BAR_KEYWORDS.any (fun k => strIn k raw_name) then .ok (some "bar")
  else if source_system = some "TABC" then do
    let license_type ← pyOrEmptyLower (← pyGet payload "license_type" .vnull)
    if BAR_KEYWORDS.any (fun k => strIn k license_type) then .ok (some "bar")
    else .ok (some "restaurant")
  else if source_system = some "DALLAS_CO" ∨ source_system = some "FORTWORTH_CO" then do
    let occupancy ← pyOrEmptyLower (← pyGet payload "occupancy" .vnull)
    let use_desc ← pyOrEmptyLower (← pyGet payload "USE_DESC" .vnull)
    let combined := occupancy ++ " " ++ use_desc
    if BAR_KEYWORDS.any (fun k => strIn k combined) then .ok (some "bar")
    else if RESTAURANT_KEYWORDS.any (fun k => strIn k combined) then .ok (some "restaurant")
    else fallback
  else if source_system = some "SALES_TAX" then do
    let naics ← pyGet payload "naics_code" (.vstr "")
    if pyValEqStr naics "722410" then .ok (some "bar")
    else do
      let b ← pyStartsWith naics "7225"
      if b then .ok (some "restaurant") else fallback
  else fallback

/-- `infer_status_from_event` from `src/etl/merge.py`: a total lookup on
`source_system`. -/
def infer_status_from_event (ev : SourceEvent) : String :=
  if ev.source_system = some "TABC" then "permitting"
  else if ev.source_system = some "SALES_TAX" then "permitting"
  else if PERMIT_SOURCES.any (fun s => ev.source_system = some s) then "permitting"
  else if ev.source_system = some "DALLAS_CO" ∨ ev.source_system = some "FORTWORTH_CO" then
    "opening_soon"
  else "unknown"

/-! ## Scorer (`src/etl/merge.py`, `calculate_priority_score`) -/

/-- `calculate_priority_score` from `src/etl/merge.py`, accumulating the
bonuses in source order.  The `first_seen_date` string and `date.today()`
are modelled by their combined observable `daysOld`: the age in days
`(date.today() - strptime(first_seen_date)).days`, with `none` when the
date is falsy or fails to parse (the caught `ValueError`/`TypeError`
branch, and the `if first_seen_date:` guard). -/
def calculate_priority_score (venue_type status : Option String)
    (daysOld : Option Int) (has_phone has_website : Bool)
    (source_count : Int) : Int :=
  let score : Int := 0
  let score := score +
    (match daysOld with
     | none => 0
     | some days_old =>
       if days_old ≤ 3 then 50
       else if days_old ≤ 7 then 40
       else if days_old ≤ 14 then 25
       else if days_old ≤ 30 then 10
       else 0)
  let score := score +
    (if status = some "permitting" then 30
     else if status = some "opening_soon" then 40
     else if status = some "open" then 10
     else 0)
  let score := score +
    (if venue_type = some "bar" then 20
     else if venue_type = some "restaurant" then 15
     else 0)
  let score := score + (if has_phone then 25 else 0)
  let score := score + (if has_website then 5 else 0)
  let score := score + (if source_count ≥ 2 then 15 else 0)
  score

/-- `calculate_priority_score_simple` from `src/etl/merge.py`: the full
scorer at the default values of its optional parameters. -/
def calculate_priority_score_simple (venue_type status : Option String) : Int :=
  calculate_priority_score venue_type status none false false 1

/-! ## Matcher/Merger orchestrator (`src/etl/merge.py`,
`update_venues_from_unmatched_events`) -/

/-- The database state the orchestrator manipulates. -/
structure DBState where
  venues : List Venue
  nextId : Nat
  events : List SourceEvent

/-- `get_unmatched_source_events`: all events with `venue_id IS NULL`.
The query's `ORDER BY event_date DESC` only permutes the rows; every
property proved below is invariant under the processing order, so the
table-order list stands in for the sorted one. -/
def unlinkedEvents (st : DBState) : List SourceEvent :=
  st.events.filter (fun e => e.venue_id.isNone)

/-- The parsed-date observable for `calculate_priority_score` when the
orchestrator passes `first_seen_date=event["event_date"]`: `ageOf` is the
environment's `strptime`-and-`date.today()` (giving `none` on parse
failure), lifted to the nullable column value. -/
def ageOfDate (ageOf : String → Option Int) (o : Option String) : Option Int :=
  match o with
  | none => none
  | some s => if s = "" then none else ageOf s

/-- `payload.get("naics_code")` as stored into `venue_data`:
JSON `null` is Python `None`.  Payload NAICS values that are neither
strings nor `null` are outside the modelled fragment. -/
def naicsFromPayload (payload : PyVal) : Except String (Option String) :=
  match pyGet payload "naics_code" .vnull with
  | .error e => .error e
  | .ok .vnull => .ok none
  | .ok (.vstr s) => .ok (some s)
  | .ok _ => .error "UnmodelledPayloadValue"

/-- The body of the per-event loop of `update_venues_from_unmatched_events`:
normalize, skip on insufficient data (leaving the event unlinked),
classify, score, build the draft, upsert, and link the event
(`UPDATE source_events SET venue_id = ? WHERE id = ?`). -/
def processEvent (ageOf : String → Option Int) (st : DBState)
    (ev : SourceEvent) : Except String DBState :=
  let norm_name := normalize_name (ev.raw_name.getD "")
  let norm_address := normalize_address (ev.raw_address.getD "")
  if norm_name = "" ∨ norm_address = "" then .ok st
  else
    match infer_venue_type_from_event ev with
    | .error e => .error e
    | .ok venue_type =>
      let status := infer_status_from_event ev
      let priority_score := calculate_priority_score venue_type (some status)
        (ageOfDate ageOf ev.event_date) false false 1
      let payload := parsePayload ev.payload_json
      match naicsFromPayload payload with
      | .error e => .error e
      | .ok naics_code =>
        let venue_data : Draft := {
          name := some ev.raw_name
          normalized_name := some (some norm_name)
          address := some ev.raw_address
          normalized_address := some (some norm_address)
          city := some ev.city
          state := some (some "TX")
          zip := some none
          venue_type := some venue_type
          status := some (some status)
          first_seen_date := some ev.event_date
          last_seen_date := some ev.event_date
          priority_score := some (some priority_score)
          naics_code := some naics_code }
        match upsertVenue st.venues st.nextId venue_data with
        | .error e => .error e
        | .ok r =>
          .ok { venues := r.1, nextId := r.2.1,
                events := st.events.map (fun e =>
                  if e.id = ev.id then { e with venue_id := some r.2.2 } else e) }

/-- The orchestrator's loop over a fixed snapshot of events. -/
def processList (ageOf : String → Option Int) :
    DBState → List SourceEvent → Except String DBState
  | st, [] => .ok st
  | st, ev :: evs =>
    match processEvent ageOf st ev with
    | .error e => .error e
    | .ok st' => processList ageOf st' evs

/-- `update_venues_from_unmatched_events` from `src/etl/merge.py`: fetch
the unlinked events, process each, and report how many events the run
processed (the count the function prints). -/
def update_venues_from_unmatched_events (ageOf : String → Option Int)
    (st : DBState) : Except String (DBState × Nat) :=
  let unmatched := unlinkedEvents st
  match processList ageOf st unmatched with
  | .error e => .error e
  | .ok st' => .ok (st', unmatched.length)

/-! ## Spec-side scorer decomposition (for the refinement claim about
`calculate_priority_score`) -/

/-- Modelled from the spec: the recency bucket on the age in days of
`first_seen_date` (≤3 days → 50, ≤7 → 40, ≤14 → 25, ≤30 → 10, older or
missing/unparsable → 0). -/
def specRecencyBucket (daysOld : Option Int) : Int :=
  match daysOld with
  | none => 0
  | some d => if d ≤ 3 then 50 else if d ≤ 7 then 40 else if d ≤ 14 then 25
      else if d ≤ 30 then 10 else 0

/-- Modelled from the spec: the status bonus (opening_soon → 40,
permitting → 30, open → 10, otherwise 0). -/
def specStatusBonus (status : Option String) : Int :=
  if status = some "opening_soon" then 40
  else if status = some "permitting" then 30
  else if status = some "open" then 10
  else 0

/-- Modelled from the spec: the venue-type bonus (bar → 20,
restaurant → 15, otherwise 0). -/
def specVenueTypeBonus (venue_type : Option String) : Int :=
  if venue_type = some "bar" then 20
  else if venue_type = some "restaurant" then 15
  else 0

/-- The status if-chain of the scorer (permitting checked first) agrees
with the spec's status bonus (opening_soon listed first): the string
equalities are mutually exclusive. -/
theorem statusBonus_chain (st : Option String) :
    (if st = some "permitting" then (30 : Int)
     else if st = some "opening_soon" then 40
     else if st = some "open" then 10
     else 0) = specStatusBonus st := by
  unfold specStatusBonus
  split_ifs <;> simp_all

/-- The scorer's sequential accumulation equals the spec's sum of six
independent bonuses. -/
theorem score_eq_sum (vt st : Option String) (d : Option Int)
    (hp hw : Bool) (sc : Int) :
    calculate_priority_score vt st d hp hw sc =
      specRecencyBucket d + specStatusBonus st + specVenueTypeBonus vt +
      (if hp then 25 else 0) + (if hw then 5 else 0) +
      (if sc ≥ 2 then 15 else 0) := by
  have h := statusBonus_chain st
  dsimp only [calculate_priority_score, specRecencyBucket, specVenueTypeBonus]
  rw [h]
  omega

theorem specRecencyBucket_bounds (d : Option Int) :
    0 ≤ specRecencyBucket d ∧ specRecencyBucket d ≤ 50 := by
  rcases d with _ | d <;> dsimp only [specRecencyBucket] <;>
    [omega; split_ifs <;> omega]

theorem specStatusBonus_bounds (st : Option String) :
    0 ≤ specStatusBonus st ∧ specStatusBonus st ≤ 40 := by
  unfold specStatusBonus
  split_ifs <;> omega

theorem specVenueTypeBonus_bounds (vt : Option String) :
    0 ≤ specVenueTypeBonus vt ∧ specVenueTypeBonus vt ≤ 20 := by
  unfold specVenueTypeBonus
  split_ifs <;> omega

/-- C4: for every input, `calculate_priority_score` returns exactly the
sum of the recency bucket, the status bonus (under which opening_soon
outranks permitting, which outranks open), the venue-type bonus, 25 for a
phone, 5 for a website, and 15 for `source_count ≥ 2`. -/
theorem C4_score_is_sum_of_bonuses (vt st : Option String) (d : Option Int)
    (hp hw : Bool) (sc : Int) :
    calculate_priority_score vt st d hp hw sc =
      specRecencyBucket d + specStatusBonus st + specVenueTypeBonus vt +
      (if hp then 25 else 0) + (if hw then 5 else 0) +
      (if sc ≥ 2 then 15 else 0) ∧
    specStatusBonus (some "opening_soon") > specStatusBonus (some "permitting") ∧
    specStatusBonus (some "permitting") > specStatusBonus (some "open") := by
  exact ⟨score_eq_sum vt st d hp hw sc, by decide, by decide⟩

/-- C10: for every combination of inputs, the priority score lies between
0 and 155 = 50 + 40 + 20 + 25 + 5 + 15. -/
theorem C10_score_bounds (vt st : Option String) (d : Option Int)
    (hp hw : Bool) (sc : Int) :
    0 ≤ calculate_priority_score vt st d hp hw sc ∧
      calculate_priority_score vt st d hp hw sc ≤ 155 := by
  rw [score_eq_sum]
  have h1 := specRecencyBucket_bounds d
  have h2 := specStatusBonus_bounds st
  have h3 := specVenueTypeBonus_bounds vt
  rcases hp <;> rcases hw <;> split_ifs <;> omega

/-! ## Venue-store lemmas -/

/-- Full characterization of a successful `computeUpdate`: available as
soon as the incoming `last_seen_date` is not a present-`None` value. -/
theorem computeUpdate_ok (v : Venue) (d : Draft) (s : String)
    (hs : dget d.last_seen_date (some "") = some s) :
    computeUpdate v d = .ok {
      last_seen_date := pyStrMax s (v.last_seen_date.getD "")
      venue_type := pyOr (dget d.venue_type none) v.venue_type
      status :=
        if statusPriority (dget d.status (some "unknown")) >
            statusPriority (pyOr v.status (some "unknown"))
        then dget d.status (some "unknown")
        else pyOr v.status (some "unknown")
      priority_score :=
        dget d.priority_score
          (if truthyI v.priority_score then v.priority_score else some 50)
      phone := pyOr (dget d.phone none) v.phone
      website := pyOr (dget d.website none) v.website
      google_place_id := pyOr (dget d.google_place_id none) v.google_place_id
      naics_code := pyOr (dget d.naics_code none) v.naics_code } := by
  simp only [computeUpdate, hs, pyMaxStr]

/-- `computeUpdate` raises `TypeError` exactly on a present-`None`
incoming `last_seen_date`. -/
theorem computeUpdate_err (v : Venue) (d : Draft)
    (hs : dget d.last_seen_date (some "") = none) :
    computeUpdate v d = .error "TypeError" := by
  simp only [computeUpdate, hs, pyMaxStr]

/-- Defaulting a falsy stored status to `"unknown"` does not change its
priority rank. -/
theorem statusPriority_pyOr_unknown (s : Option String) :
    statusPriority (pyOr s (some "unknown")) = statusPriority s := by
  rcases s with _ | str
  · rfl
  · by_cases h : str = ""
    · subst h; rfl
    · have ht : truthyS (some str) = true := by simp [truthyS, h]
      simp [pyOr, ht]

/-- One merge step never lowers the status rank. -/
theorem mergeVenue_status_mono (v : Venue) (d : Draft) (v' : Venue)
    (h : mergeVenue v d = .ok v') :
    statusPriority v.status ≤ statusPriority v'.status := by
  unfold mergeVenue at h
  cases hd : dget d.last_seen_date (some "") with
  | none => rw [computeUpdate_err v d hd] at h; exact absurd h (by simp)
  | some s =>
    rw [computeUpdate_ok v d s hd] at h
    simp only [Except.ok.injEq] at h
    subst h
    show statusPriority v.status ≤ statusPriority (if _ then _ else _)
    split_ifs with hgt
    · rw [statusPriority_pyOr_unknown] at hgt; omega
    · rw [statusPriority_pyOr_unknown]

theorem mergeSeq_nil (v : Venue) : mergeSeq v [] = .ok v := rfl

theorem mergeSeq_cons (v : Venue) (d : Draft) (ds : List Draft) :
    mergeSeq v (d :: ds) =
      match mergeVenue v d with
      | .error e => .error e
      | .ok v₁ => mergeSeq v₁ ds := rfl

/-- A whole sequence of merges never lowers the status rank. -/
theorem mergeSeq_status_mono (ds : List Draft) : ∀ v v' : Venue,
    mergeSeq v ds = .ok v' →
    statusPriority v.status ≤ statusPriority v'.status := by
  induction ds with
  | nil =>
    intro v v' h
    simp only [mergeSeq_nil, Except.ok.injEq] at h
    subst h; exact le_refl _
  | cons d ds ih =>
    intro v v' h
    rw [mergeSeq_cons] at h
    cases hm : mergeVenue v d with
    | error e => rw [hm] at h; exact absurd h (by simp)
    | ok v₁ =>
      rw [hm] at h
      exact le_trans (mergeVenue_status_mono v d v₁ hm) (ih v₁ v' h)

/-- Merging a concatenated sequence factors through the intermediate
state. -/
theorem mergeSeq_append (l₁ l₂ : List Draft) : ∀ v : Venue,
    mergeSeq v (l₁ ++ l₂) =
      match mergeSeq v l₁ with
      | .error e => .error e
      | .ok v₁ => mergeSeq v₁ l₂ := by
  induction l₁ with
  | nil => intro v; rfl
  | cons d l₁ ih =>
    intro v
    rw [List.cons_append, mergeSeq_cons, mergeSeq_cons]
    cases hm : mergeVenue v d with
    | error e => rfl
    | ok v₁ => exact ih v₁

/-- C2: for any sequence of matching upserts, the stored status rank
at a later time is at least the rank at any earlier time (under
open(3) > opening_soon(2) > permitting(1) > unknown(0)); status never
regresses. -/
theorem C2_status_never_regresses (v : Venue) (l₁ l₂ : List Draft)
    (v₁ v₂ : Venue) (h₁ : mergeSeq v l₁ = .ok v₁)
    (h₂ : mergeSeq v (l₁ ++ l₂) = .ok v₂) :
    statusPriority v₁.status ≤ statusPriority v₂.status := by
  rw [mergeSeq_append] at h₂
  rw [h₁] at h₂
  exact mergeSeq_status_mono l₂ v₁ v₂ h₂

/-- Successful merge, fully explicit. -/
theorem mergeVenue_ok (v : Venue) (d : Draft) (s : String)
    (hs : dget d.last_seen_date (some "") = some s) :
    mergeVenue v d = .ok (applyUpdate v {
      last_seen_date := pyStrMax s (v.last_seen_date.getD "")
      venue_type := pyOr (dget d.venue_type none) v.venue_type
      status :=
        if statusPriority (dget d.status (some "unknown")) >
            statusPriority (pyOr v.status (some "unknown"))
        then dget d.status (some "unknown")
        else pyOr v.status (some "unknown")
      priority_score :=
        dget d.priority_score
          (if truthyI v.priority_score then v.priority_score else some 50)
      phone := pyOr (dget d.phone none) v.phone
      website := pyOr (dget d.website none) v.website
      google_place_id := pyOr (dget d.google_place_id none) v.google_place_id
      naics_code := pyOr (dget d.naics_code none) v.naics_code }) := by
  unfold mergeVenue
  rw [computeUpdate_ok v d s hs]

/-! ## Concrete rows and drafts used by witnesses and counterexamples -/

/-- A concrete stored venue row. -/
def wVenue : Venue :=
  { id := 1, name := some "Joes Tavern", normalized_name := some "joes tavern",
    address := some "5 Elm", normalized_address := some "5 elm",
    city := some "Dallas", state := some "TX", zip := none,
    latitude := none, longitude := none,
    phone := some "111", website := none, google_place_id := none,
    naics_code := none, venue_type := some "bar",
    status := some "permitting", first_seen_date := some "2024-01-01",
    last_seen_date := some "2024-01-01", priority_score := some 50,
    notes := none, lead_status := some "new", next_follow_up := none,
    competitor := none, lost_reason := none }

/-- A draft carrying a new status and a later date. -/
def wD1 : Draft :=
  { status := some (some "opening_soon"),
    last_seen_date := some (some "2024-01-03") }

/-- A draft carrying a lower-ranked status and a later date. -/
def wD2 : Draft :=
  { status := some (some "unknown"),
    last_seen_date := some (some "2024-01-04") }

/-- A draft carrying a new phone for a venue that already has one. -/
def wOverwriteDraft : Draft :=
  { phone := some (some "222"),
    last_seen_date := some (some "2024-01-02") }

/-- The venue after merging `wD1`. -/
def wVenue1 : Venue :=
  { wVenue with
    status := some "opening_soon"
    last_seen_date := some "2024-01-03" }

/-- The venue after merging `wD1` then `wD2`. -/
def wVenue2 : Venue :=
  { wVenue with
    status := some "opening_soon"
    last_seen_date := some "2024-01-04" }

theorem C2_status_witness :
    statusPriority wVenue1.status ≤ statusPriority wVenue2.status :=
  C2_status_never_regresses wVenue [wD1] [wD2] wVenue1 wVenue2 rfl rfl

/-- C1 is violated by the code: `upsert_venue` computes
`venue_data.get("phone") or existing["phone"]`, so an incoming non-empty
phone replaces a stored non-empty phone (likewise website, place id,
NAICS, venue type), contradicting the fill-if-empty comment above those
lines. -/
theorem C1_enrichment_overwritten :
    wVenue.phone = some "111" ∧ truthyS wVenue.phone = true ∧
    (mergeVenue wVenue wOverwriteDraft).map (fun v => v.phone) =
      .ok (some "222") :=
  ⟨rfl, rfl, rfl⟩

/-- C9: when `upsert_venue` matches an existing venue, the table keeps its
length; every row with a different id is untouched; and on every row with
the matched id only the eight `SET` columns can change — name, normalized
name, address, normalized address, city, state, zip, coordinates,
first_seen_date, notes and the lead-tracking fields are left unchanged. -/
theorem C9_update_frame (venues : List Venue) (n : Nat) (d : Draft)
    (venues' : List Venue) (n' vid : Nat) (v : Venue)
    (hfind : venues.find? (fun w => keyMatch w d) = some v)
    (h : upsertVenue venues n d = .ok (venues', n', vid)) :
    venues'.length = venues.length ∧
    (∀ i (hi : i < venues.length) (hi' : i < venues'.length),
      (venues.get ⟨i, hi⟩).id ≠ vid →
        venues'.get ⟨i, hi'⟩ = venues.get ⟨i, hi⟩) ∧
    (∀ i (hi : i < venues.length) (hi' : i < venues'.length),
      (venues'.get ⟨i, hi'⟩).id = (venues.get ⟨i, hi⟩).id ∧
      (venues'.get ⟨i, hi'⟩).name = (venues.get ⟨i, hi⟩).name ∧
      (venues'.get ⟨i, hi'⟩).normalized_name = (venues.get ⟨i, hi⟩).normalized_name ∧
      (venues'.get ⟨i, hi'⟩).address = (venues.get ⟨i, hi⟩).address ∧
      (venues'.get ⟨i, hi'⟩).normalized_address = (venues.get ⟨i, hi⟩).normalized_address ∧
      (venues'.get ⟨i, hi'⟩).city = (venues.get ⟨i, hi⟩).city ∧
      (venues'.get ⟨i, hi'⟩).state = (venues.get ⟨i, hi⟩).state ∧
      (venues'.get ⟨i, hi'⟩).zip = (venues.get ⟨i, hi⟩).zip ∧
      (venues'.get ⟨i, hi'⟩).latitude = (venues.get ⟨i, hi⟩).latitude ∧
      (venues'.get ⟨i, hi'⟩).longitude = (venues.get ⟨i, hi⟩).longitude ∧
      (venues'.get ⟨i, hi'⟩).first_seen_date = (venues.get ⟨i, hi⟩).first_seen_date ∧
      (venues'.get ⟨i, hi'⟩).notes = (venues.get ⟨i, hi⟩).notes ∧
      (venues'.get ⟨i, hi'⟩).lead_status = (venues.get ⟨i, hi⟩).lead_status ∧
      (venues'.get ⟨i, hi'⟩).next_follow_up = (venues.get ⟨i, hi⟩).next_follow_up ∧
      (venues'.get ⟨i, hi'⟩).competitor = (venues.get ⟨i, hi⟩).competitor ∧
      (venues'.get ⟨i, hi'⟩).lost_reason = (venues.get ⟨i, hi⟩).lost_reason) := by
  unfold upsertVenue at h
  split at h
  case h_2 heq =>
    rw [hfind] at heq
    exact absurd heq (by simp)
  case h_1 v' heq =>
    rw [hfind] at heq
    injection heq with hv'
    subst hv'
    split at h
    case h_1 e hcu => exact absurd h (by simp)
    case h_2 u hcu =>
    simp only [Except.ok.injEq, Prod.mk.injEq] at h
    obtain ⟨hv, _, hid⟩ := h
    subst hv
    subst hid
    refine ⟨List.length_map _ _, ?_, ?_⟩
    · intro i hi hi' hne
      simp only [List.get_eq_getElem] at hne ⊢
      simp only [List.getElem_map]
      rw [if_neg hne]
    · intro i hi hi'
      simp only [List.get_eq_getElem, List.getElem_map]
      by_cases hc : (venues[i]).id = v.id
      · rw [if_pos hc]
        simp [applyUpdate]
      · rw [if_neg hc]
        simp

/-- A second stored venue, not matching `wKeyDraft`. -/
def wOther : Venue :=
  { wVenue with
    id := 2
    normalized_name := some "other spot"
    city := some "Plano" }

/-- A draft whose identity triple matches `wVenue` only. -/
def wKeyDraft : Draft :=
  { normalized_name := some (some "joes tavern")
    normalized_address := some (some "5 elm")
    city := some (some "Dallas")
    last_seen_date := some (some "2024-02-02") }

/-- The matched row after merging `wKeyDraft`. -/
def wVenueMergedK : Venue :=
  { wVenue with last_seen_date := some "2024-02-02" }

theorem C9_update_frame_witness :
    ([wVenueMergedK, wOther] : List Venue).length =
      ([wVenue, wOther] : List Venue).length ∧
    (∀ i (hi : i < ([wVenue, wOther] : List Venue).length)
        (hi' : i < ([wVenueMergedK, wOther] : List Venue).length),
      (([wVenue, wOther] : List Venue).get ⟨i, hi⟩).id ≠ 1 →
        ([wVenueMergedK, wOther] : List Venue).get ⟨i, hi'⟩ =
          ([wVenue, wOther] : List Venue).get ⟨i, hi⟩) ∧
    (∀ i (hi : i < ([wVenue, wOther] : List Venue).length)
        (hi' : i < ([wVenueMergedK, wOther] : List Venue).length),
      (([wVenueMergedK, wOther] : List Venue).get ⟨i, hi'⟩).id =
        (([wVenue, wOther] : List Venue).get ⟨i, hi⟩).id ∧
      (([wVenueMergedK, wOther] : List Venue).get ⟨i, hi'⟩).name =
        (([wVenue, wOther] : List Venue).get ⟨i, hi⟩).name ∧
      (([wVenueMergedK, wOther] : List Venue).get ⟨i, hi'⟩).normalized_name =
        (([wVenue, wOther] : List Venue).get ⟨i, hi⟩).normalized_name ∧
      (([wVenueMergedK, wOther] : List Venue).get ⟨i, hi'⟩).address =
        (([wVenue, wOther] : List Venue).get ⟨i, hi⟩).address ∧
      (([wVenueMergedK, wOther] : List Venue).get ⟨i, hi'⟩).normalized_address =
        (([wVenue, wOther] : List Venue).get ⟨i, hi⟩).normalized_address ∧
      (([wVenueMergedK, wOther] : List Venue).get ⟨i, hi'⟩).city =
        (([wVenue, wOther] : List Venue).get ⟨i, hi⟩).city ∧
      (([wVenueMergedK, wOther] : List Venue).get ⟨i, hi'⟩).state =
        (([wVenue, wOther] : List Venue).get ⟨i, hi⟩).state ∧
      (([wVenueMergedK, wOther] : List Venue).get ⟨i, hi'⟩).zip =
        (([wVenue, wOther] : List Venue).get ⟨i, hi⟩).zip ∧
      (([wVenueMergedK, wOther] : List Venue).get ⟨i, hi'⟩).latitude =
        (([wVenue, wOther] : List Venue).get ⟨i, hi⟩).latitude ∧
      (([wVenueMergedK, wOther] : List Venue).get ⟨i, hi'⟩).longitude =
        (([wVenue, wOther] : List Venue).get ⟨i, hi⟩).longitude ∧
      (([wVenueMergedK, wOther] : List Venue).get ⟨i, hi'⟩).first_seen_date =
        (([wVenue, wOther] : List Venue).get ⟨i, hi⟩).first_seen_date ∧
      (([wVenueMergedK, wOther] : List Venue).get ⟨i, hi'⟩).notes =
        (([wVenue, wOther] : List Venue).get ⟨i, hi⟩).notes ∧
      (([wVenueMergedK, wOther] : List Venue).get ⟨i, hi'⟩).lead_status =
        (([wVenue, wOther] : List Venue).get ⟨i, hi⟩).lead_status ∧
      (([wVenueMergedK, wOther] : List Venue).get ⟨i, hi'⟩).next_follow_up =
        (([wVenue, wOther] : List Venue).get ⟨i, hi⟩).next_follow_up ∧
      (([wVenueMergedK, wOther] : List Venue).get ⟨i, hi'⟩).competitor =
        (([wVenue, wOther] : List Venue).get ⟨i, hi⟩).competitor ∧
      (([wVenueMergedK, wOther] : List Venue).get ⟨i, hi'⟩).lost_reason =
        (([wVenue, wOther] : List Venue).get ⟨i, hi⟩).lost_reason) :=
  C9_update_frame [wVenue, wOther] 3 wKeyDraft [wVenueMergedK, wOther] 3 1
    wVenue rfl rfl

/-! ## C3: first/last seen dates under merging -/

/-- The creating draft, carrying event date 2024-01-02. -/
def wCreate : Draft :=
  { name := some (some "Joes Tavern")
    normalized_name := some (some "joes tavern")
    normalized_address := some (some "5 elm")
    city := some (some "Dallas")
    first_seen_date := some (some "2024-01-02")
    last_seen_date := some (some "2024-01-02") }

/-- A matching draft carrying the strictly earlier event date
2024-01-01. -/
def wEarlier : Draft :=
  { normalized_name := some (some "joes tavern")
    normalized_address := some (some "5 elm")
    city := some (some "Dallas")
    first_seen_date := some (some "2024-01-01")
    last_seen_date := some (some "2024-01-01") }

/-- C3 counterexample: create the venue from the 2024-01-02 event, then
merge the 2024-01-01 event.  The stored `first_seen_date` stays
2024-01-02, which is not the minimum of the observed event dates; and
upserting the same two events in the other order ends with
`first_seen_date` 2024-01-01, so the final state depends on the order. -/
theorem C3_first_seen_not_min :
    (mergeSeq (insertVenue 1 wCreate) [wEarlier]).map
        (fun v => v.first_seen_date) = .ok (some "2024-01-02") ∧
    min "2024-01-02" "2024-01-01" = "2024-01-01" ∧
    "2024-01-02" ≠ "2024-01-01" ∧
    (mergeSeq (insertVenue 1 wEarlier) [wCreate]).map
        (fun v => v.first_seen_date) = .ok (some "2024-01-01") := by
  refine ⟨rfl, ?_, by decide, rfl⟩
  have hle : ¬ (("2024-01-02" : String) ≤ ("2024-01-01" : String)) := by
    rw [String.le_iff_toList_le]
    decide
  rw [min_def, if_neg hle]

/-- The incoming `last_seen_date` value of a draft, as the merge branch
reads it (`venue_data.get("last_seen_date", "")`). -/
def draftLastSeen (d : Draft) : String :=
  (dget d.last_seen_date (some "")).getD ""

/-- One step of the stored `last_seen_date` update. -/
def maxStep (m : Option String) (s : String) : Option String :=
  some (pyStrMax s (m.getD ""))

/-- Through a successful merge sequence, `first_seen_date` is never
touched and `last_seen_date` is the iterated maximum of the incoming
dates. -/
theorem mergeSeq_dates (ds : List Draft) : ∀ v v' : Venue,
    (∀ d ∈ ds, dget d.last_seen_date (some "") ≠ none) →
    mergeSeq v ds = .ok v' →
    v'.first_seen_date = v.first_seen_date ∧
    v'.last_seen_date =
      ds.foldl (fun m d => maxStep m (draftLastSeen d)) v.last_seen_date := by
  induction ds with
  | nil =>
    intro v v' _ h
    simp only [mergeSeq_nil, Except.ok.injEq] at h
    subst h
    exact ⟨rfl, rfl⟩
  | cons d ds ih =>
    intro v v' hds h
    rw [mergeSeq_cons] at h
    obtain ⟨s, hs⟩ :=
      Option.ne_none_iff_exists'.mp (hds d (List.mem_cons_self d ds))
    rw [mergeVenue_ok v d s hs] at h
    have hds' : ∀ d' ∈ ds, dget d'.last_seen_date (some "") ≠ none :=
      fun d' hd' => hds d' (List.mem_cons_of_mem d hd')
    obtain ⟨h1, h2⟩ := ih _ v' hds' h
    constructor
    · exact h1
    · rw [h2]
      simp only [List.foldl_cons]
      have hlast : (applyUpdate v {
          last_seen_date := pyStrMax s (v.last_seen_date.getD "")
          venue_type := pyOr (dget d.venue_type none) v.venue_type
          status :=
            if statusPriority (dget d.status (some "unknown")) >
                statusPriority (pyOr v.status (some "unknown"))
            then dget d.status (some "unknown")
            else pyOr v.status (some "unknown")
          priority_score :=
            dget d.priority_score
              (if truthyI v.priority_score then v.priority_score else some 50)
          phone := pyOr (dget d.phone none) v.phone
          website := pyOr (dget d.website none) v.website
          google_place_id := pyOr (dget d.google_place_id none) v.google_place_id
          naics_code := pyOr (dget d.naics_code none) v.naics_code
        } : Venue).last_seen_date =
          maxStep v.last_seen_date (draftLastSeen d) := by
        simp only [applyUpdate, maxStep, draftLastSeen, hs, Option.getD_some]
      rw [hlast]

/-- The iterated last-seen maximum is invariant under permuting the
drafts (the step function is right-commutative because string maximum is
associative-commutative). -/
theorem foldl_maxStep_perm (l₁ l₂ : List Draft) (hp : l₁.Perm l₂) :
    ∀ b : Option String,
      l₁.foldl (fun m d => maxStep m (draftLastSeen d)) b =
      l₂.foldl (fun m d => maxStep m (draftLastSeen d)) b := by
  induction hp with
  | nil => intro b; rfl
  | cons x _ ih =>
    intro b
    simp only [List.foldl_cons]
    exact ih _
  | swap x y l =>
    intro b
    simp only [List.foldl_cons]
    have hstep : maxStep (maxStep b (draftLastSeen y)) (draftLastSeen x) =
        maxStep (maxStep b (draftLastSeen x)) (draftLastSeen y) := by
      simp only [maxStep, Option.getD_some, pyStrMax_eq_max]
      rw [max_left_comm]
    rw [hstep]
  | trans _ _ ih₁ ih₂ =>
    intro b
    exact (ih₁ b).trans (ih₂ b)

/-- C3 amended: after creating a venue from draft `d0` and merging any
further matching drafts `ds` (each carrying a non-`None` incoming
`last_seen_date`), the stored `first_seen_date` is exactly the creating
draft's value — never the minimum of all observed dates — and the stored
`last_seen_date` is the iterated maximum of all incoming dates; the final
values of both fields are the same for every ordering of `ds`. -/
theorem C3_dates_amended (d0 : Draft) (ds : List Draft) (n : Nat)
    (v' : Venue)
    (hds : ∀ d ∈ ds, dget d.last_seen_date (some "") ≠ none)
    (h : mergeSeq (insertVenue n d0) ds = .ok v') :
    v'.first_seen_date = dget d0.first_seen_date none ∧
    v'.last_seen_date =
      ds.foldl (fun m d => maxStep m (draftLastSeen d))
        (dget d0.last_seen_date none) ∧
    (∀ ds' v'', ds'.Perm ds →
      mergeSeq (insertVenue n d0) ds' = .ok v'' →
      v''.first_seen_date = v'.first_seen_date ∧
      v''.last_seen_date = v'.last_seen_date) := by
  obtain ⟨h1, h2⟩ := mergeSeq_dates ds (insertVenue n d0) v' hds h
  refine ⟨h1, h2, ?_⟩
  intro ds' v'' hperm h''
  have hds' : ∀ d ∈ ds', dget d.last_seen_date (some "") ≠ none :=
    fun d hd => hds d (hperm.mem_iff.mp hd)
  obtain ⟨h1', h2'⟩ := mergeSeq_dates ds' (insertVenue n d0) v'' hds' h''
  constructor
  · rw [h1', h1]
  · rw [h2', h2]
    exact foldl_maxStep_perm ds' ds hperm _

theorem C3_dates_witness :
    (insertVenue 1 wCreate).first_seen_date =
      dget wCreate.first_seen_date none ∧
    (insertVenue 1 wCreate).last_seen_date =
      [wEarlier].foldl (fun m d => maxStep m (draftLastSeen d))
        (dget wCreate.last_seen_date none) ∧
    (∀ ds' v'', ds'.Perm [wEarlier] →
      mergeSeq (insertVenue 1 wCreate) ds' = .ok v'' →
      v''.first_seen_date = (insertVenue 1 wCreate).first_seen_date ∧
      v''.last_seen_date = (insertVenue 1 wCreate).last_seen_date) :=
  C3_dates_amended wCreate [wEarlier] 1 (insertVenue 1 wCreate)
    (by decide) rfl

/-! ## C6 and C7: exception behaviour at concrete malformed inputs -/

/-- A source event whose `event_date` is `NULL` and whose name/address
normalize to the identity triple of `wVenue`. -/
def wNoneDateEvent : SourceEvent :=
  { id := 7, source_system := some "TABC", event_date := none,
    raw_name := some "Joes Tavern", raw_address := some "5 Elm",
    city := some "Dallas" }

/-- C6 is violated by the code: processing an event whose `event_date` is
`None` against a matching stored venue reaches
`max(None, current_last_seen)` in `upsert_venue` and raises `TypeError`,
aborting the batch (creating a new venue from such an event succeeds, so
the failure is specific to the match branch). -/
theorem C6_none_date_raises :
    processEvent (fun _ => none)
      { venues := [wVenue], nextId := 3, events := [wNoneDateEvent] }
      wNoneDateEvent = .error "TypeError" := by rfl

/-- The same `None`-dated event creates a venue without raising when no
stored venue matches, as the claim expects. -/
theorem C6_none_date_insert_ok :
    (processEvent (fun _ => none)
      { venues := [], nextId := 3, events := [wNoneDateEvent] }
      wNoneDateEvent).isOk = true := by rfl

/-- A sales-tax event whose payload carries `"naics_code": null`. -/
def wNullNaicsEvent : SourceEvent :=
  { id := 9, source_system := some "SALES_TAX",
    raw_name := some "Main Supply",
    payload_json := some (some (.vdict [("naics_code", .vnull)])) }

/-- C7 is violated by the code: on a sales-tax event whose payload has a
JSON `null` NAICS code, `payload.get("naics_code", "")` returns `None`
and `naics.startswith("7225")` raises `AttributeError`; the classifier is
not total. -/
theorem C7_null_naics_raises :
    infer_venue_type_from_event wNullNaicsEvent = .error "AttributeError" := by
  rfl

/-- `infer_status_from_event` itself is total by construction and yields
the fallback on unknown sources. -/
theorem infer_status_total (ev : SourceEvent) :
    infer_status_from_event ev = "permitting" ∨
    infer_status_from_event ev = "opening_soon" ∨
    infer_status_from_event ev = "unknown" := by
  unfold infer_status_from_event
  split_ifs <;> simp

/-! ## C8: idempotence of normalization -/

/-- C8 counterexample: `normalize_address` is not idempotent.  In
`"x st st y"` the two `" st "` occurrences overlap in their bounding
spaces, so one application expands only the first; applying the function
again expands the survivor, giving a different string. -/
theorem C8_address_not_idempotent :
    normalize_address "x st st y" = "x street st y" ∧
    normalize_address (normalize_address "x st st y") = "x street street y" ∧
    normalize_address (normalize_address "x st st y") ≠
      normalize_address "x st st y" := by
  refine ⟨by decide, by decide, by decide⟩

theorem keepChar_subChar (c : Char) : keepChar (subChar c) = true := by
  unfold subChar
  by_cases h : keepChar c = true
  · rw [if_pos h]; exact h
  · rw [if_neg h]; decide

theorem pyLower_of_keep (c : Char) (hk : keepChar c = true) :
    pyLower c = c := by
  unfold pyLower
  rw [if_neg]
  intro hcon
  simp only [keepChar, isPySpace, Bool.or_eq_true, Bool.and_eq_true,
    decide_eq_true_eq] at hk
  omega

theorem subChar_of_keep (c : Char) (hk : keepChar c = true) :
    subChar c = c := by
  unfold subChar
  rw [if_pos hk]

/-- Every piece produced by `splitOnP` consists of characters of the
source that fail the predicate. -/
theorem splitOnP_pieces (p : Char → Bool) : ∀ (l : List Char),
    ∀ piece ∈ l.splitOnP p, ∀ c ∈ piece, p c = false ∧ c ∈ l := by
  intro l
  induction l with
  | nil =>
    intro piece hp c hc
    rw [List.splitOnP_nil] at hp
    simp only [List.mem_singleton] at hp
    subst hp
    simp at hc
  | cons a l ih =>
    intro piece hp c hc
    rw [List.splitOnP_cons] at hp
    by_cases ha : p a = true
    · rw [if_pos ha] at hp
      rcases List.mem_cons.mp hp with h1 | h1
      · subst h1; simp at hc
      · obtain ⟨hpc, hcl⟩ := ih piece h1 c hc
        exact ⟨hpc, List.mem_cons_of_mem a hcl⟩
    · rw [if_neg ha] at hp
      have hafalse : p a = false := by
        revert ha; cases p a <;> simp
      obtain ⟨h0, t0, hsplit⟩ : ∃ h0 t0, l.splitOnP p = h0 :: t0 := by
        cases hsp : l.splitOnP p with
        | nil => exact absurd hsp (List.splitOnP_ne_nil p l)
        | cons h0 t0 => exact ⟨h0, t0, rfl⟩
      rw [hsplit] at hp
      simp only [List.modifyHead] at hp
      rcases List.mem_cons.mp hp with h1 | h1
      · subst h1
        rcases List.mem_cons.mp hc with h2 | h2
        · rw [h2]
          exact ⟨hafalse, List.mem_cons_self a l⟩
        · obtain ⟨hpc, hcl⟩ := ih h0 (by rw [hsplit]; exact List.mem_cons_self h0 t0) c h2
          exact ⟨hpc, List.mem_cons_of_mem a hcl⟩
      · obtain ⟨hpc, hcl⟩ := ih piece (by rw [hsplit]; exact List.mem_cons_of_mem h0 h1) c hc
        exact ⟨hpc, List.mem_cons_of_mem a hcl⟩

/-- A character of a space-join is a space or a character of a token. -/
theorem mem_joinSp : ∀ (ts : List (List Char)) (c : Char),
    c ∈ joinSp ts → c = ' ' ∨ ∃ t ∈ ts, c ∈ t := by
  intro ts
  induction ts with
  | nil => intro c hc; simp [joinSp] at hc
  | cons t ts ih =>
    intro c hc
    cases ts with
    | nil => exact Or.inr ⟨t, by simp, hc⟩
    | cons t' ts' =>
      rw [show joinSp (t :: t' :: ts') = t ++ ' ' :: joinSp (t' :: ts') from rfl] at hc
      rcases List.mem_append.mp hc with h | h
      · exact Or.inr ⟨t, by simp, h⟩
      · rcases List.mem_cons.mp h with h1 | h1
        · exact Or.inl h1
        · rcases ih c h1 with h2 | ⟨t'', ht'', hct⟩
          · exact Or.inl h2
          · exact Or.inr ⟨t'', List.mem_cons_of_mem t ht'', hct⟩

/-- Splitting a space-join of nonempty space-free tokens recovers the
tokens. -/
theorem pyWords_joinSp : ∀ ts : List (List Char),
    (∀ t ∈ ts, t ≠ []) →
    (∀ t ∈ ts, ∀ c ∈ t, isPySpace c = false) →
    pyWords (joinSp ts) = ts := by
  intro ts
  induction ts with
  | nil => intro _ _; rfl
  | cons t ts ih =>
    intro hne hsp
    have htsp : ∀ x ∈ t, ¬ isPySpace x = true := by
      intro x hx
      rw [hsp t (List.mem_cons_self t ts) x hx]
      simp
    have htne : (!t.isEmpty) = true := by
      cases t with
      | nil => exact absurd rfl (hne [] (List.mem_cons_self [] ts))
      | cons c cs => rfl
    cases ts with
    | nil =>
      show pyWords (joinSp [t]) = [t]
      have hj : joinSp [t] = t := rfl
      rw [hj]
      unfold pyWords
      rw [List.splitOnP_eq_single _ _ htsp]
      rw [List.filter_cons]
      rw [if_pos htne]
      rfl
    | cons t' ts' =>
      have hj : joinSp (t :: t' :: ts') = t ++ ' ' :: joinSp (t' :: ts') := rfl
      rw [hj]
      unfold pyWords
      rw [List.splitOnP_first _ _ htsp ' ' (by decide) _]
      rw [List.filter_cons, if_pos htne]
      have ihr := ih (fun x hx => hne x (List.mem_cons_of_mem t hx))
        (fun x hx => hsp x (List.mem_cons_of_mem t hx))
      unfold pyWords at ihr
      rw [ihr]

/-- C8 amended: `normalize_name` is idempotent for every string (the
address half of the claim fails, see the counterexample): a second pass
leaves the lowercase alphanumeric tokens and their single-space join
unchanged, and no stop word can reappear. -/
theorem C8_normalize_name_idempotent (s : String) :
    normalize_name (normalize_name s) = normalize_name s := by
  by_cases hs : s = ""
  · subst hs; rfl
  · have hr : normalize_name s = String.mk (joinSp (nameTokens s)) := by
      unfold normalize_name
      rw [if_neg hs]
    by_cases hr0 : normalize_name s = ""
    · rw [hr0]; rfl
    · have hdata : (normalize_name s).data = joinSp (nameTokens s) := by
        rw [hr]
      have hA : ∀ t ∈ nameTokens s, t ≠ [] := by
        intro t ht
        have ht' : t ∈ pyWords ((s.data.map pyLower).map subChar) :=
          List.mem_of_mem_filter ht
        have ht2 := List.of_mem_filter ht'
        intro hnil
        subst hnil
        simp at ht2
      have hB : ∀ t ∈ nameTokens s, ∀ c ∈ t,
          isPySpace c = false ∧ keepChar c = true := by
        intro t ht c hc
        have ht' : t ∈ pyWords ((s.data.map pyLower).map subChar) :=
          List.mem_of_mem_filter ht
        have ht'' : t ∈ ((s.data.map pyLower).map subChar).splitOnP isPySpace :=
          List.mem_of_mem_filter ht'
        obtain ⟨hpc, hcl⟩ := splitOnP_pieces isPySpace _ t ht'' c hc
        refine ⟨hpc, ?_⟩
        rcases List.mem_map.mp hcl with ⟨x, _, hx⟩
        rw [← hx]
        exact keepChar_subChar x
      have hC : ∀ t ∈ nameTokens s,
          (!STOP_WORDS.contains (String.mk t)) = true := by
        intro t ht
        have ht0 : t ∈ (pyWords ((s.data.map pyLower).map subChar)).filter
            (fun u => !STOP_WORDS.contains (String.mk u)) := ht
        have hres := List.of_mem_filter ht0
        exact hres
      have hfix : ∀ c ∈ joinSp (nameTokens s), subChar (pyLower c) = c := by
        intro c hc
        rcases mem_joinSp (nameTokens s) c hc with h | ⟨t, ht, hct⟩
        · subst h; decide
        · have hk := (hB t ht c hct).2
          rw [pyLower_of_keep c hk, subChar_of_keep c hk]
      have htok : nameTokens (normalize_name s) = nameTokens s := by
        unfold nameTokens
        rw [hdata]
        have hmap : ((joinSp (nameTokens s)).map pyLower).map subChar =
            joinSp (nameTokens s) := by
          rw [List.map_map]
          have hcong : ∀ c ∈ joinSp (nameTokens s),
              (subChar ∘ pyLower) c = id c := fun c hc => hfix c hc
          rw [List.map_congr_left hcong, List.map_id]
        rw [hmap]
        rw [pyWords_joinSp (nameTokens s) hA
          (fun t ht c hc => (hB t ht c hc).1)]
        exact List.filter_eq_self.mpr hC
      have heq : ∀ x : String, x ≠ "" →
          normalize_name x = String.mk (joinSp (nameTokens x)) := by
        intro x hx
        unfold normalize_name
        rw [if_neg hx]
      rw [heq _ hr0, htok, ← hr]

/-! ## C5: the merge orchestrator run twice -/

/-- The skip condition of the per-event loop: the event's name or address
normalizes to the empty string. -/
def insufficientData (ev : SourceEvent) : Prop :=
  normalize_name (ev.raw_name.getD "") = "" ∨
    normalize_address (ev.raw_address.getD "") = ""

instance (ev : SourceEvent) : Decidable (insufficientData ev) := by
  unfold insufficientData
  infer_instance

theorem processList_nil (ageOf : String → Option Int) (st : DBState) :
    processList ageOf st [] = .ok st := rfl

theorem processList_cons (ageOf : String → Option Int) (st : DBState)
    (ev : SourceEvent) (evs : List SourceEvent) :
    processList ageOf st (ev :: evs) =
      match processEvent ageOf st ev with
      | .error e => .error e
      | .ok st' => processList ageOf st' evs := rfl

/-- A malformed event is skipped: the state is untouched and the event
stays unlinked. -/
theorem processEvent_skip (ageOf : String → Option Int) (st : DBState)
    (ev : SourceEvent) (h : insufficientData ev) :
    processEvent ageOf st ev = .ok st := by
  unfold insufficientData at h
  simp only [processEvent]
  rw [if_pos h]

/-- A successful `processEvent` either skipped a malformed event, or
linked the processed event (and only rows with its id) in the event
table. -/
theorem processEvent_cases (ageOf : String → Option Int) (st : DBState)
    (ev : SourceEvent) (st' : DBState)
    (h : processEvent ageOf st ev = .ok st') :
    (insufficientData ev ∧ st' = st) ∨
    (¬ insufficientData ev ∧ ∃ vid,
      st'.events = st.events.map (fun e =>
        if e.id = ev.id then { e with venue_id := some vid } else e)) := by
  by_cases hmal : insufficientData ev
  · rw [processEvent_skip ageOf st ev hmal] at h
    simp only [Except.ok.injEq] at h
    exact Or.inl ⟨hmal, h.symm⟩
  · right
    refine ⟨hmal, ?_⟩
    unfold insufficientData at hmal
    simp only [processEvent] at h
    rw [if_neg hmal] at h
    split at h
    · exact absurd h (by simp)
    · split at h
      · exact absurd h (by simp)
      · split at h
        · exact absurd h (by simp)
        · rename_i r hup
          simp only [Except.ok.injEq] at h
          exact ⟨r.2.2, by rw [← h]⟩

/-- Invariant of the orchestrator loop: every still-unlinked event is
either malformed or still waiting in the remaining snapshot (same id and
raw fields). -/
def InvUnlinked (st : DBState) (evs : List SourceEvent) : Prop :=
  ∀ e ∈ st.events, e.venue_id = none →
    insufficientData e ∨ ∃ e' ∈ evs, e'.id = e.id ∧
      e'.raw_name = e.raw_name ∧ e'.raw_address = e.raw_address

/-- Malformedness only depends on the raw name and address. -/
theorem insufficientData_congr (e e' : SourceEvent)
    (hn : e'.raw_name = e.raw_name) (ha : e'.raw_address = e.raw_address)
    (h : insufficientData e') : insufficientData e := by
  unfold insufficientData at h ⊢
  rw [hn, ha] at h
  exact h

/-- After a run over the snapshot, every still-unlinked event is
malformed. -/
theorem processList_malformed (ageOf : String → Option Int) :
    ∀ (evs : List SourceEvent) (st st' : DBState),
    InvUnlinked st evs → processList ageOf st evs = .ok st' →
    ∀ e ∈ st'.events, e.venue_id = none → insufficientData e := by
  intro evs
  induction evs with
  | nil =>
    intro st st' hinv h e he hun
    rw [processList_nil] at h
    simp only [Except.ok.injEq] at h
    subst h
    rcases hinv e he hun with hm | ⟨e', he', _⟩
    · exact hm
    · simp at he'
  | cons ev evs ih =>
    intro st st' hinv h e he hun
    rw [processList_cons] at h
    cases hpe : processEvent ageOf st ev with
    | error er => rw [hpe] at h; exact absurd h (by simp)
    | ok st₁ =>
      rw [hpe] at h
      refine ih st₁ st' ?_ h e he hun
      rcases processEvent_cases ageOf st ev st₁ hpe with ⟨hmal, hst⟩ | ⟨hok, vid, hev⟩
      · subst hst
        intro e₀ he₀ hun₀
        rcases hinv e₀ he₀ hun₀ with hm | ⟨e', he', hid, hrn, hra⟩
        · exact Or.inl hm
        · rcases List.mem_cons.mp he' with h1 | h1
          · subst h1
            exact Or.inl (insufficientData_congr e₀ e' hrn hra hmal)
          · exact Or.inr ⟨e', h1, hid, hrn, hra⟩
      · intro e₀ he₀ hun₀
        rw [hev] at he₀
        rcases List.mem_map.mp he₀ with ⟨e₁, he₁, hfe⟩
        by_cases hid1 : e₁.id = ev.id
        · rw [if_pos hid1] at hfe
          rw [← hfe] at hun₀
          simp at hun₀
        · rw [if_neg hid1] at hfe
          subst hfe
          rcases hinv e₁ he₁ hun₀ with hm | ⟨e', he', hid, hrn, hra⟩
          · exact Or.inl hm
          · rcases List.mem_cons.mp he' with h1 | h1
            · subst h1
              exact absurd hid.symm hid1
            · exact Or.inr ⟨e', h1, hid, hrn, hra⟩

/-- Processing a list of malformed events is a no-op. -/
theorem processList_noop (ageOf : String → Option Int) :
    ∀ (evs : List SourceEvent) (st : DBState),
    (∀ e ∈ evs, insufficientData e) →
    processList ageOf st evs = .ok st := by
  intro evs
  induction evs with
  | nil => intro st _; rfl
  | cons ev evs ih =>
    intro st hmal
    rw [processList_cons,
      processEvent_skip ageOf st ev (hmal ev (List.mem_cons_self ev evs))]
    exact ih st (fun e he => hmal e (List.mem_cons_of_mem ev he))

/-- Raw name and address of every event row survive a run. -/
theorem processList_raw (ageOf : String → Option Int) :
    ∀ (evs : List SourceEvent) (st st' : DBState),
    processList ageOf st evs = .ok st' →
    ∀ e ∈ st'.events, ∃ e₀ ∈ st.events,
      e.raw_name = e₀.raw_name ∧ e.raw_address = e₀.raw_address := by
  intro evs
  induction evs with
  | nil =>
    intro st st' h e he
    rw [processList_nil] at h
    simp only [Except.ok.injEq] at h
    subst h
    exact ⟨e, he, rfl, rfl⟩
  | cons ev evs ih =>
    intro st st' h e he
    rw [processList_cons] at h
    cases hpe : processEvent ageOf st ev with
    | error er => rw [hpe] at h; exact absurd h (by simp)
    | ok st₁ =>
      rw [hpe] at h
      obtain ⟨e₁, he₁, hn₁, ha₁⟩ := ih st₁ st' h e he
      rcases processEvent_cases ageOf st ev st₁ hpe with ⟨_, hst⟩ | ⟨_, vid, hev⟩
      · subst hst
        exact ⟨e₁, he₁, hn₁, ha₁⟩
      · rw [hev] at he₁
        rcases List.mem_map.mp he₁ with ⟨e₀, he₀, hfe⟩
        by_cases hid : e₀.id = ev.id
        · rw [if_pos hid] at hfe
          refine ⟨e₀, he₀, ?_, ?_⟩
          · rw [hn₁, ← hfe]
          · rw [ha₁, ← hfe]
        · rw [if_neg hid] at hfe
          subst hfe
          exact ⟨e₀, he₀, hn₁, ha₁⟩

/-- Every event unlinked at the start is covered by the initial
snapshot. -/
theorem invUnlinked_init (st : DBState) : InvUnlinked st (unlinkedEvents st) := by
  intro e he hun
  refine Or.inr ⟨e, ?_, rfl, rfl, rfl⟩
  unfold unlinkedEvents
  refine List.mem_filter.mpr ⟨he, ?_⟩
  rw [hun]
  rfl

/-- C5 amended: after one orchestrator run, a second run with no new
events returns the state entirely unchanged and links nothing; the events
it processes are exactly those still unlinked, all of which were skipped
as malformed (empty normalized name or address) by the first run — so the
second run processes zero events exactly when no source event is
malformed. -/
theorem C5_second_run_noop (ageOf : String → Option Int)
    (st0 st1 : DBState) (n1 : Nat)
    (h : update_venues_from_unmatched_events ageOf st0 = .ok (st1, n1)) :
    update_venues_from_unmatched_events ageOf st1 =
      .ok (st1, (unlinkedEvents st1).length) ∧
    (∀ e ∈ st1.events, e.venue_id = none → insufficientData e) ∧
    ((∀ e ∈ st0.events, ¬ insufficientData e) → unlinkedEvents st1 = []) := by
  simp only [update_venues_from_unmatched_events] at h
  cases hpl : processList ageOf st0 (unlinkedEvents st0) with
  | error er => rw [hpl] at h; exact absurd h (by simp)
  | ok st1' =>
    rw [hpl] at h
    simp only [Except.ok.injEq, Prod.mk.injEq] at h
    obtain ⟨rfl, -⟩ := h
    have hmal : ∀ e ∈ st1'.events, e.venue_id = none → insufficientData e :=
      processList_malformed ageOf (unlinkedEvents st0) st0 st1'
        (invUnlinked_init st0) hpl
    have hsnap : ∀ e ∈ unlinkedEvents st1', insufficientData e := by
      intro e he
      obtain ⟨he', hun⟩ := List.mem_filter.mp he
      refine hmal e he' ?_
      cases hu : e.venue_id with
      | none => rfl
      | some vid => rw [hu] at hun; simp at hun
    have hnoop : processList ageOf st1' (unlinkedEvents st1') = .ok st1' :=
      processList_noop ageOf (unlinkedEvents st1') st1' hsnap
    refine ⟨?_, hmal, ?_⟩
    · simp only [update_venues_from_unmatched_events]
      rw [hnoop]
    · intro hgood
      have : ∀ e ∈ st1'.events, ¬ (e.venue_id.isNone = true) := by
        intro e he hun
        have hun' : e.venue_id = none := by
          cases hu : e.venue_id with
          | none => rfl
          | some vid => rw [hu] at hun; simp at hun
        obtain ⟨e₀, he₀, hn₀, ha₀⟩ :=
          processList_raw ageOf (unlinkedEvents st0) st0 st1' hpl e he
        exact hgood e₀ he₀
          (insufficientData_congr e₀ e hn₀ ha₀ (hmal e he hun'))
      unfold unlinkedEvents
      exact List.filter_eq_nil_iff.mpr this

/-- An event whose raw name normalizes to the empty string: skipped and
left unlinked by every run. -/
def wEmptyNameEvent : SourceEvent :=
  { id := 11, raw_name := some "", raw_address := some "5 Elm",
    city := some "Dallas" }

/-- A database state holding one such event. -/
def stCex : DBState :=
  { venues := [], nextId := 1, events := [wEmptyNameEvent] }

/-- C5 counterexample: with one malformed event in the store, the first
run skips it and leaves it unlinked, so the second run again fetches and
processes one event — not zero as the claim states. -/
theorem C5_second_run_not_zero :
    ((update_venues_from_unmatched_events (fun _ => none) stCex).bind
      (fun p => (update_venues_from_unmatched_events (fun _ => none) p.1).map
        (fun q => q.2))) = .ok 1 ∧ (1 : Nat) ≠ 0 :=
  ⟨rfl, by decide⟩

theorem C5_second_run_noop_witness :
    update_venues_from_unmatched_events (fun _ => none) stCex =
      .ok (stCex, (unlinkedEvents stCex).length) ∧
    (∀ e ∈ stCex.events, e.venue_id = none → insufficientData e) ∧
    ((∀ e ∈ stCex.events, ¬ insufficientData e) → unlinkedEvents stCex = []) :=
  C5_second_run_noop (fun _ => none) stCex stCex 1 rfl
